import Mathlib

/-!
Shallow embedding of the coordination core of the ai-agent-screenshare
repository (audio segmentation, transcript validation and dedup, screen
change detection, frame buffer, event bus, overlay expiry sweep), with
theorems checking the natural-language specification against the code.
-/

/-! ### Configuration defaults (src/config.py) -/

def sample_rate : ℕ := 16000

def chunk_size : ℕ := 1024

/-- `AudioConfig.silence_duration` default `0.5` seconds. -/
def silence_duration : ℚ := 1/2

/-- `ScreenCaptureConfig.change_threshold` default `0.10`. -/
def change_threshold : ℚ := 1/10

/-- `AudioManager._cooldown_period = 3.0` seconds. -/
def cooldown_period : ℚ := 3

/-! ### Transcript validation (src/audio/speech_to_text.py)

Python strings are modelled as `List Char`; lowering is per character,
which agrees with `str.lower` on the ASCII artifact strings involved. -/

/-- `starts_with n h` is true when `n` is an initial segment of `h`
(the prefix test underlying Python substring containment). -/
def starts_with : List Char → List Char → Bool
  | [], _ => true
  | _ :: _, [] => false
  | a :: as, b :: bs => a = b && starts_with as bs

/-- `has_sub n h` models Python `n in h` (substring containment). -/
def has_sub (needle : List Char) : List Char → Bool
  | [] => needle.isEmpty
  | c :: rest => starts_with needle (c :: rest) || has_sub needle rest

/-- Python `str.strip()`: remove leading and trailing whitespace. -/
def strip (s : List Char) : List Char :=
  ((s.dropWhile Char.isWhitespace).reverse.dropWhile Char.isWhitespace).reverse

/-- The Whisper artifact reject list of `SpeechToText.is_valid_transcription`. -/
def artifacts : List (List Char) :=
  ["[BLANK_AUDIO]".toList, "[MUSIC]".toList, "[NOISE]".toList,
   "(static)".toList, "...".toList]

/-- `SpeechToText.is_valid_transcription`: reject empty text, any text
containing a lower-cased artifact, and text whose stripped length is below 2. -/
def is_valid_transcription (text : List Char) : Bool :=
  if text = [] then false
  else if artifacts.any
      (fun a => has_sub (a.map Char.toLower) (text.map Char.toLower)) then false
  else if (strip text).length < 2 then false
  else true

/-- `SpeechToText.transcribe`: the external Whisper call either raises
(mapped to the empty string by the `except` handler) or returns text,
which is stripped before being returned. -/
def transcribe (call_result : Except String (List Char)) : List Char :=
  match call_result with
  | Except.error _ => []
  | Except.ok t => strip t

/-! ### Audio segmenter (src/audio/audio_manager.py) -/

/-- One raw audio chunk together with the boolean verdict of
`VADDetector.is_speech` on it (the VAD backend is external; only its
boolean output reaches `AudioManager.process_audio_chunk`). -/
structure Chunk where
  data : ℕ
  speech : Bool
deriving DecidableEq, Repr

/-- Mutable fields of `AudioManager` touched by chunk processing. -/
structure AudioState where
  is_listening : Bool
  audio_buffer : List Chunk
  silence_counter : ℕ
  silence_threshold : ℕ
  processing_buffer : Bool
  last_transcription : Option (List Char)
  last_transcription_time : ℚ
  is_speaking : Bool
deriving DecidableEq

/-- `int(config.audio.silence_duration * config.audio.sample_rate /
config.audio.chunk_size)` (truncation of a positive float = floor). -/
def silence_threshold_calc (sd : ℚ) (sr cs : ℕ) : ℕ :=
  (Int.floor (sd * sr / cs)).toNat

/-- `AudioManager.__init__` state (threshold from the config formula). -/
def init_audio_state (th : ℕ) : AudioState :=
  { is_listening := false
    audio_buffer := []
    silence_counter := 0
    silence_threshold := th
    processing_buffer := false
    last_transcription := none
    last_transcription_time := 0
    is_speaking := false }

/-- Synchronous prefix of `AudioManager._process_buffered_audio`: the
empty-buffer and reentrancy guards, then the atomic swap-out of the
buffer (copy, clear, leave listening, reset counter) with the
processing flag raised.  Returns the flushed chunk list when a flush
actually starts. -/
def begin_flush (s : AudioState) : AudioState × Option (List Chunk) :=
  if s.audio_buffer = [] then (s, none)
  else if s.processing_buffer then (s, none)
  else ({ s with
            processing_buffer := true
            audio_buffer := []
            is_listening := false
            silence_counter := 0 }, some s.audio_buffer)

/-- `AudioManager.process_audio_chunk`: speaking guard, processing guard,
VAD branch, silence counting, threshold-triggered flush.  The second
component is the buffer handed to transcription when a flush starts. -/
def process_audio_chunk (s : AudioState) (c : Chunk) :
    AudioState × Option (List Chunk) :=
  if s.is_speaking then (s, none)
  else if s.processing_buffer then (s, none)
  else if c.speech then
    ({ s with
         audio_buffer := s.audio_buffer ++ [c]
         silence_counter := 0
         is_listening := true }, none)
  else if s.is_listening then
    let s1 := { s with silence_counter := s.silence_counter + 1 }
    if s1.silence_threshold ≤ s1.silence_counter then begin_flush s1
    else (s1, none)
  else (s, none)

/-- Remainder of `AudioManager._process_buffered_audio` after the
transcription call returns `text` (failures already mapped to `[]` by
`transcribe`): validity check, duplicate-suppression window, update of
the last-accepted record, and the `finally` clause lowering the
processing flag.  The second component is the text delivered to the
transcription callback, when any. -/
def finish_flush (s : AudioState) (now : ℚ) (text : List Char) :
    AudioState × Option (List Char) :=
  if is_valid_transcription text then
    if s.last_transcription = some text ∧
        now - s.last_transcription_time < cooldown_period then
      ({ s with processing_buffer := false }, none)
    else
      ({ s with
           last_transcription := some text
           last_transcription_time := now
           processing_buffer := false }, some text)
  else ({ s with processing_buffer := false }, none)

/-- `AudioManager._process_buffered_audio` as a whole, with `now` the
time sampled at entry and `text` the transcription outcome. -/
def process_buffered_audio (s : AudioState) (now : ℚ) (text : List Char) :
    AudioState × Option (List Char) :=
  match begin_flush s with
  | (s1, none) => (s1, none)
  | (s1, some _) => finish_flush s1 now text

/-- Feed a chunk sequence through `process_audio_chunk`, collecting the
flushed buffers in order. -/
def audio_run (s : AudioState) : List Chunk → AudioState × List (List Chunk)
  | [] => (s, [])
  | c :: cs =>
    let p := process_audio_chunk s c
    let q := audio_run p.1 cs
    (q.1, (match p.2 with | some l => [l] | none => []) ++ q.2)

/-! ### Frame buffer (src/capture/frame_buffer.py) -/

/-- `Frame` dataclass (the numpy payload is abstracted to `α`; the
timestamp plays no role in the claims). -/
structure FrameRec (α : Type) where
  data : α
  frame_number : ℕ
  changed : Bool
  processed : Bool
deriving DecidableEq

/-- `FrameBuffer`: `frames` lists buffered frames oldest first, matching
the left-to-right order of the underlying `collections.deque`. -/
structure FrameBuffer (α : Type) where
  max_size : ℕ
  frames : List (FrameRec α)
  current_frame_number : ℕ
deriving DecidableEq

/-- Keep the `n` most recent entries of `l` (`collections.deque` with
`maxlen = n` after an append). -/
def trim (n : ℕ) (l : List α) : List α := l.drop (l.length - n)

/-- `FrameBuffer.__init__`. -/
def mkFrameBuffer (α : Type) (n : ℕ) : FrameBuffer α := ⟨n, [], 0⟩

/-- `FrameBuffer.add_frame`: build the frame with the current sequence
number, append (the bounded deque evicts the oldest entry when the
capacity would be exceeded), increment the counter, return the frame. -/
def FrameBuffer.add_frame (fb : FrameBuffer α) (d : α) (changed : Bool) :
    FrameBuffer α × FrameRec α :=
  let f : FrameRec α := ⟨d, fb.current_frame_number, changed, false⟩
  ({ fb with
       frames := trim fb.max_size (fb.frames ++ [f])
       current_frame_number := fb.current_frame_number + 1 }, f)

/-- A whole sequence of `add_frame` calls. -/
def add_all (fb : FrameBuffer α) (ds : List (α × Bool)) : FrameBuffer α :=
  ds.foldl (fun b d => (b.add_frame d.1 d.2).1) fb

/-- The frames a sequence of `add_frame` calls creates, in creation
order, when the first one is assigned sequence number `k`. -/
def history_from (k : ℕ) : List (α × Bool) → List (FrameRec α)
  | [] => []
  | d :: ds => ⟨d.1, k, d.2, false⟩ :: history_from (k + 1) ds

/-! ### Screen change detection (src/capture/screen_capturer.py)

Frames are matrices of BGR pixels (rows of `Pix`).  `cv2.absdiff` is a
per-channel absolute difference; `cv2.cvtColor(·, COLOR_BGR2GRAY)` is
modelled by OpenCV's documented luma weighting
`Y = 0.299 R + 0.587 G + 0.114 B`, rounded to nearest. -/

structure Pix where
  b : ℕ
  g : ℕ
  r : ℕ
deriving DecidableEq

abbrev FrameMat := List (List Pix)

def absdiff (x y : ℕ) : ℕ := max x y - min x y

def pix_absdiff (p q : Pix) : Pix :=
  ⟨absdiff p.b q.b, absdiff p.g q.g, absdiff p.r q.r⟩

/-- BGR → grayscale luma, rounded to nearest. -/
def gray (p : Pix) : ℕ := (299 * p.r + 587 * p.g + 114 * p.b + 500) / 1000

/-- `current_frame.shape == self.last_frame.shape` on the first two axes. -/
def same_shape (f g : FrameMat) : Bool :=
  decide (f.map List.length = g.map List.length)

def pixel_count (f : FrameMat) : ℕ := (f.map List.length).sum

/-- `np.sum(diff_gray > 30)`: number of pixel positions whose
gray-converted absolute difference exceeds 30. -/
def changed_count (cur last : FrameMat) : ℕ :=
  ((cur.zip last).map
    (fun rc => ((rc.1.zip rc.2).filter
      (fun pq => 30 < gray (pix_absdiff pq.1 pq.2))).length)).sum

/-- `ScreenCapturer.detect_significant_change`: `True` with no previous
frame, `True` on mismatched shapes, otherwise compare the changed-pixel
fraction with the threshold.  An empty frame makes the percentage
computation divide by zero; the `except` handler returns `True`. -/
def detect_significant_change (last : Option FrameMat) (cur : FrameMat)
    (threshold : ℚ) : Bool :=
  match last with
  | none => true
  | some lf =>
    if same_shape cur lf then
      if pixel_count cur = 0 then true
      else decide ((changed_count cur lf : ℚ) / (pixel_count cur : ℚ) > threshold)
    else true

/-- The spec sentence's change test, for comparison: a pixel counts as
changed when some channel of the per-channel absolute difference
exceeds the fixed delta 30. -/
def spec_pixel_changed (p q : Pix) : Bool :=
  (30 < absdiff p.b q.b) || (30 < absdiff p.g q.g) || (30 < absdiff p.r q.r)

/-- Changed-pixel count under the spec sentence's per-channel reading. -/
def spec_changed_count (cur last : FrameMat) : ℕ :=
  ((cur.zip last).map
    (fun rc => ((rc.1.zip rc.2).filter
      (fun pq => spec_pixel_changed pq.1 pq.2)).length)).sum

/-- Body of `Orchestrator._screen_capture_loop` for one captured frame:
append to the frame buffer and publish `screen_changed` only when
`detect_significant_change` fires.  The boolean records whether the
event was published. -/
def screen_capture_step (last : Option FrameMat) (threshold : ℚ)
    (fb : FrameBuffer FrameMat) (f : FrameMat) : FrameBuffer FrameMat × Bool :=
  if detect_significant_change last f threshold then
    ((fb.add_frame f true).1, true)
  else (fb, false)

/-! ### Event bus (src/core/event_bus.py)

Queues are named by the order of their creating `subscribe` call;
`queues` maps each name to the FIFO list of events delivered to it. -/

structure Ev where
  etype : String
  payload : ℕ
deriving DecidableEq

/-- `self._subscribers`: dict from event type to the list of registered
queues, in registration order. -/
def lookup_subs : List (String × List ℕ) → String → Option (List ℕ)
  | [], _ => none
  | e :: rest, t => if e.1 = t then some e.2 else lookup_subs rest t

/-- One iteration of the `subscribe` loop: create the key if absent,
then append the queue. -/
def register_sub : List (String × List ℕ) → String → ℕ → List (String × List ℕ)
  | [], t, q => [(t, [q])]
  | e :: rest, t, q =>
    if e.1 = t then (e.1, e.2 ++ [q]) :: rest else e :: register_sub rest t q

/-- One iteration of the `unsubscribe` loop: `list.remove` drops the
first occurrence of the queue, when present. -/
def remove_sub : List (String × List ℕ) → String → ℕ → List (String × List ℕ)
  | [], _, _ => []
  | e :: rest, t, q =>
    if e.1 = t then (e.1, e.2.erase q) :: rest else e :: remove_sub rest t q

/-- Pointwise queue-map update. -/
def upd (f : ℕ → List Ev) (i : ℕ) (v : List Ev) : ℕ → List Ev :=
  fun j => if j = i then v else f j

structure EventBus where
  subs : List (String × List ℕ)
  queues : ℕ → List Ev
  next_q : ℕ
  event_count : ℕ

/-- `EventBus.__init__`. -/
def init_bus : EventBus := ⟨[], fun _ => [], 0, 0⟩

/-- `EventBus.publish`: when the type has an entry, put the event on
every registered queue (once per registration) and bump the counter;
otherwise do nothing. -/
def EventBus.publish (b : EventBus) (t : String) (d : ℕ) : EventBus :=
  match lookup_subs b.subs t with
  | none => b
  | some qs =>
    { b with
        queues := qs.foldl (fun f i => upd f i (f i ++ [⟨t, d⟩])) b.queues
        event_count := b.event_count + 1 }

/-- `EventBus.subscribe`: a fresh queue, registered under each listed
type in order. -/
def EventBus.subscribe (b : EventBus) (types : List String) : EventBus × ℕ :=
  ({ b with
       subs := types.foldl (fun ss t => register_sub ss t b.next_q) b.subs
       queues := upd b.queues b.next_q []
       next_q := b.next_q + 1 }, b.next_q)

/-- `EventBus.unsubscribe`. -/
def EventBus.unsubscribe (b : EventBus) (types : List String) (q : ℕ) : EventBus :=
  { b with subs := types.foldl (fun ss t => remove_sub ss t q) b.subs }

inductive BusOp where
  | subscribe (types : List String)
  | unsubscribe (types : List String) (q : ℕ)
  | publish (t : String) (d : ℕ)
deriving DecidableEq

def bus_step (b : EventBus) : BusOp → EventBus
  | .subscribe ts => (b.subscribe ts).1
  | .unsubscribe ts q => b.unsubscribe ts q
  | .publish t d => b.publish t d

def bus_run (ops : List BusOp) : EventBus := ops.foldl bus_step init_bus

/-- The events the spec sentence says queue `q` receives from one
operation: each publish whose type `q` is currently registered for. -/
def delivered_step (b : EventBus) (q : ℕ) : BusOp → List Ev
  | .publish t d =>
    match lookup_subs b.subs t with
    | some qs => if q ∈ qs then [⟨t, d⟩] else []
    | none => []
  | _ => []

def spec_delivered_from (b : EventBus) (q : ℕ) : List BusOp → List Ev
  | [] => []
  | op :: ops => delivered_step b q op ++ spec_delivered_from (bus_step b op) q ops

/-- The full delivery list the spec sentence prescribes for queue `q`. -/
def spec_delivered (ops : List BusOp) (q : ℕ) : List Ev :=
  spec_delivered_from init_bus q ops

/-- Boolean duplicate-freedom test. -/
def nodupb : List String → Bool
  | [] => true
  | x :: xs => !(xs.contains x) && nodupb xs

/-- A `subscribe` operation lists each type at most once; other
operations pass trivially. -/
def sub_nodup_ok : BusOp → Bool
  | .subscribe ts => nodupb ts
  | _ => true

/-- Every `subscribe` in the sequence lists each type at most once. -/
def nodup_subscribes (ops : List BusOp) : Bool := ops.all sub_nodup_ok

/-! ### Overlay annotation expiry (src/overlay/macos_overlay.py) -/

/-- The `Annotation` fields the expiry sweep reads (kind, geometry,
color and text are opaque to it). -/
structure Annot where
  payload : ℕ
  duration : ℚ
  created_at : ℚ
deriving DecidableEq

/-- `MacOSOverlay.remove_expired_annotations`: keep exactly the
annotations with `current_time - ann.created_at < ann.duration`. -/
def remove_expired_annotations (anns : List Annot) (now : ℚ) : List Annot :=
  anns.filter (fun a => decide (now - a.created_at < a.duration))

/-! ### Concrete inputs used by witnesses and counterexamples -/

/-- C1 scenario: three speech chunks then eight silent chunks. -/
def scenario_chunks : List Chunk :=
  [⟨1, true⟩, ⟨2, true⟩, ⟨3, true⟩,
   ⟨4, false⟩, ⟨5, false⟩, ⟨6, false⟩, ⟨7, false⟩,
   ⟨8, false⟩, ⟨9, false⟩, ⟨10, false⟩, ⟨11, false⟩]

/-- A state in the middle of a flush (guard flag raised). -/
def flushing_state : AudioState :=
  { init_audio_state 7 with processing_buffer := true }

def speech_chunk : Chunk := ⟨42, true⟩

def turn_left : List Char := "turn left".toList

/-- A listening state holding one buffered chunk, ready to flush. -/
def c4_s0 : AudioState :=
  { init_audio_state 7 with audio_buffer := [⟨1, true⟩], is_listening := true }

def c4_r1 : AudioState × Option (List Char) := process_buffered_audio c4_s0 0 turn_left

def c4_r2 : AudioState × Option (List Char) :=
  process_buffered_audio { c4_r1.1 with audio_buffer := [⟨2, true⟩] } (3/2) turn_left

def c4_r3 : AudioState × Option (List Char) :=
  process_buffered_audio { c4_r2.1 with audio_buffer := [⟨3, true⟩] } (7/2) turn_left

/-- 1×1 all-black reference frame. -/
def black_frame : FrameMat := [[⟨0, 0, 0⟩]]

/-- 1×1 pure-blue frame: per-channel difference from black is 255, but
its gray-converted difference is only 29. -/
def blue_frame : FrameMat := [[⟨255, 0, 0⟩]]

/-- 1×1 all-white frame. -/
def white_frame : FrameMat := [[⟨255, 255, 255⟩]]

/-- Subscribing with a duplicated type list. -/
def dup_ops : List BusOp := [.subscribe ["a", "a"], .publish "a" 5]

def plain_ops : List BusOp := [.subscribe ["a"], .publish "a" 5, .publish "b" 6]

/-- A transcript that is genuine speech apart from containing `...`. -/
def ellipsis_text : List Char := "I will check... maybe".toList

/-- A state in which synthesized speech is being rendered. -/
def speaking_state : AudioState :=
  { init_audio_state 7 with is_speaking := true }

/-! # Theorems -/

/-- Default silence threshold: `int(0.5 * 16000 / 1024) = 7`. -/
lemma silence_threshold_eq :
    silence_threshold_calc silence_duration sample_rate chunk_size = 7 := by
  unfold silence_threshold_calc
  have h2 : Int.floor (silence_duration * (sample_rate : ℚ) / (chunk_size : ℚ)) = 7 := by
    rw [Int.floor_eq_iff]
    unfold silence_duration sample_rate chunk_size
    norm_num
  rw [h2]
  rfl

/-- A flush with an invalid transcription emits nothing and leaves the
last-accepted record untouched. -/
lemma flush_invalid (s : AudioState) (now : ℚ) (text : List Char)
    (h : is_valid_transcription text = false) :
    (process_buffered_audio s now text).2 = none
    ∧ (process_buffered_audio s now text).1.last_transcription = s.last_transcription
    ∧ (process_buffered_audio s now text).1.last_transcription_time
        = s.last_transcription_time := by
  unfold process_buffered_audio begin_flush finish_flush
  split_ifs <;> simp_all

lemma hv_turn_left : is_valid_transcription turn_left = true := by decide

lemma c4_r1_eq :
    c4_r1 = ({ init_audio_state 7 with last_transcription := some turn_left },
             some turn_left) := by
  unfold c4_r1 process_buffered_audio begin_flush finish_flush c4_s0
  simp [hv_turn_left, init_audio_state]

lemma c4_r2_eq :
    c4_r2 = ({ init_audio_state 7 with last_transcription := some turn_left },
             none) := by
  unfold c4_r2
  rw [c4_r1_eq]
  unfold process_buffered_audio begin_flush finish_flush
  simp [hv_turn_left, init_audio_state]
  norm_num [cooldown_period]

lemma c4_r3_eq :
    c4_r3 = ({ init_audio_state 7 with
                 last_transcription := some turn_left
                 last_transcription_time := 7/2 },
             some turn_left) := by
  unfold c4_r3
  rw [c4_r2_eq]
  unfold process_buffered_audio begin_flush finish_flush
  simp [hv_turn_left, init_audio_state]
  norm_num [cooldown_period]

/-- C1: with the default configuration the silence threshold is
`⌊0.5 × 16000 / 1024⌋ = 7`; a chunk triggers a buffer flush exactly when
it is an ungated silent chunk arriving while listening whose incremented
consecutive-silence counter reaches the threshold (with a non-empty
buffer, as listening guarantees); and 3 speech chunks followed by 8
consecutive silent chunks produce exactly one flush whose buffer holds
exactly the 3 speech chunks. -/
theorem C1_silence_threshold_flush :
    silence_threshold_calc silence_duration sample_rate chunk_size = 7
    ∧ (∀ (s : AudioState) (c : Chunk),
        (process_audio_chunk s c).2 ≠ none ↔
          (s.is_speaking = false ∧ s.processing_buffer = false ∧ c.speech = false
            ∧ s.is_listening = true ∧ s.silence_threshold ≤ s.silence_counter + 1
            ∧ s.audio_buffer ≠ []))
    ∧ (audio_run (init_audio_state
          (silence_threshold_calc silence_duration sample_rate chunk_size))
          scenario_chunks).2
        = [[⟨1, true⟩, ⟨2, true⟩, ⟨3, true⟩]] := by
  refine ⟨silence_threshold_eq, ?_, ?_⟩
  · intro s c
    unfold process_audio_chunk begin_flush
    rcases hsp : s.is_speaking <;> rcases hpb : s.processing_buffer <;>
      rcases hcs : c.speech <;> rcases hlis : s.is_listening <;>
      simp [hsp, hpb, hcs, hlis] <;> split_ifs <;> simp_all
  · rw [silence_threshold_eq]
    decide

/-- C2 is refuted: while the flushing guard flag is set, even a chunk
classified as speech is not appended to the accumulation buffer — the
chunk is dropped before the VAD branch runs. -/
theorem C2_counterexample :
    flushing_state.processing_buffer = true ∧ speech_chunk.speech = true
    ∧ speech_chunk ∉ (process_audio_chunk flushing_state speech_chunk).1.audio_buffer := by
  exact ⟨rfl, rfl, by decide⟩

/-- C2 (amended): a chunk arriving while the flushing guard flag is set
is skipped entirely — the state is unchanged and nothing is appended —
and no second flush is started, so at most one flush executes at a time
(`_process_buffered_audio` itself also refuses to start while the flag
is set). -/
theorem C2_flush_guard :
    ∀ (s : AudioState) (c : Chunk), s.processing_buffer = true →
      process_audio_chunk s c = (s, none) ∧ begin_flush s = (s, none) := by
  intro s c h
  constructor
  · unfold process_audio_chunk
    simp [h]
  · unfold begin_flush
    simp [h]

theorem C2_flush_guard_witness :
    process_audio_chunk flushing_state speech_chunk = (flushing_state, none) :=
  (C2_flush_guard flushing_state speech_chunk rfl).1

/-- C3: while the speaking flag is set, an incoming chunk is discarded
before voice-activity classification — the whole state (buffer, silence
counter, listening flag) is unchanged and no flush starts, regardless of
the chunk's voice-activity value. -/
theorem C3_speaking_discard :
    ∀ (s : AudioState) (c : Chunk), s.is_speaking = true →
      process_audio_chunk s c = (s, none) := by
  intro s c h
  unfold process_audio_chunk
  simp [h]

theorem C3_speaking_discard_witness :
    process_audio_chunk speaking_state speech_chunk = (speaking_state, none) :=
  C3_speaking_discard speaking_state speech_chunk rfl

/-- C4: an identical valid transcript arriving within the 3-second
cooldown of the last acceptance is discarded with the last-accepted
record unchanged, and one arriving at or after the cooldown is accepted
and recorded; concretely, "turn left" accepted at t=0 is suppressed at
t=1.5 and accepted again at t=3.5. -/
theorem C4_duplicate_cooldown :
    (∀ (s : AudioState) (T : List Char) (t' : ℚ),
        s.last_transcription = some T → is_valid_transcription T = true →
        ((t' - s.last_transcription_time < cooldown_period →
            finish_flush s t' T = ({ s with processing_buffer := false }, none))
          ∧ (cooldown_period ≤ t' - s.last_transcription_time →
            finish_flush s t' T =
              ({ s with
                   last_transcription := some T
                   last_transcription_time := t'
                   processing_buffer := false }, some T))))
    ∧ c4_r1.2 = some turn_left
    ∧ c4_r2.2 = none
    ∧ c4_r2.1.last_transcription = some turn_left
    ∧ c4_r2.1.last_transcription_time = 0
    ∧ c4_r3.2 = some turn_left
    ∧ c4_r3.1.last_transcription_time = 7/2 := by
  constructor
  · intro s T t' hlast hv
    unfold finish_flush
    constructor
    · intro ht
      simp [hv, hlast, ht]
    · intro ht
      simp [hv, hlast, not_lt.mpr ht]
  · rw [c4_r1_eq, c4_r2_eq, c4_r3_eq]
    simp [init_audio_state]

theorem C4_duplicate_cooldown_witness :
    finish_flush ({ init_audio_state 7 with last_transcription := some turn_left })
        (3/2) turn_left
      = ({ init_audio_state 7 with
             last_transcription := some turn_left
             processing_buffer := false }, none) :=
  (C4_duplicate_cooldown.1 _ turn_left (3/2) rfl hv_turn_left).1
    (by norm_num [init_audio_state, cooldown_period])

/-- C5: a raised exception in the external transcription call makes
`transcribe` return the empty string instead of propagating; the empty
string fails the validity predicate, so the flush emits no utterance and
the last-accepted transcript record is unchanged. -/
theorem C5_transcription_failure :
    ∀ (s : AudioState) (now : ℚ) (msg : String),
      transcribe (Except.error msg) = []
      ∧ is_valid_transcription [] = false
      ∧ (process_buffered_audio s now (transcribe (Except.error msg))).2 = none
      ∧ (process_buffered_audio s now (transcribe (Except.error msg))).1.last_transcription
          = s.last_transcription
      ∧ (process_buffered_audio s now (transcribe (Except.error msg))).1.last_transcription_time
          = s.last_transcription_time := by
  intro s now msg
  have hi : is_valid_transcription ([] : List Char) = false := by decide
  have he : transcribe (Except.error msg) = [] := rfl
  rw [he]
  exact ⟨rfl, hi, (flush_invalid s now [] hi).1, (flush_invalid s now [] hi).2.1,
    (flush_invalid s now [] hi).2.2⟩

/-- C10: the validity predicate rejects a transcript exactly when it is
empty, its stripped length is below 2, or it contains one of the five
artifact substrings case-insensitively; consequently any transcript
containing an ellipsis is discarded by the flush without being published
and without touching the last-accepted record. -/
theorem C10_validity_predicate :
    (∀ text : List Char,
        is_valid_transcription text = false ↔
          (text = [] ∨ (strip text).length < 2
            ∨ has_sub ("[BLANK_AUDIO]".toList.map Char.toLower) (text.map Char.toLower) = true
            ∨ has_sub ("[MUSIC]".toList.map Char.toLower) (text.map Char.toLower) = true
            ∨ has_sub ("[NOISE]".toList.map Char.toLower) (text.map Char.toLower) = true
            ∨ has_sub ("(static)".toList.map Char.toLower) (text.map Char.toLower) = true
            ∨ has_sub ("...".toList.map Char.toLower) (text.map Char.toLower) = true))
    ∧ (∀ (s : AudioState) (now : ℚ) (text : List Char),
        has_sub ("...".toList.map Char.toLower) (text.map Char.toLower) = true →
          (process_buffered_audio s now text).2 = none
          ∧ (process_buffered_audio s now text).1.last_transcription
              = s.last_transcription) := by
  have hiff : ∀ text : List Char,
      is_valid_transcription text = false ↔
        (text = [] ∨ (strip text).length < 2
          ∨ has_sub ("[BLANK_AUDIO]".toList.map Char.toLower) (text.map Char.toLower) = true
          ∨ has_sub ("[MUSIC]".toList.map Char.toLower) (text.map Char.toLower) = true
          ∨ has_sub ("[NOISE]".toList.map Char.toLower) (text.map Char.toLower) = true
          ∨ has_sub ("(static)".toList.map Char.toLower) (text.map Char.toLower) = true
          ∨ has_sub ("...".toList.map Char.toLower) (text.map Char.toLower) = true) := by
    intro text
    unfold is_valid_transcription artifacts
    split_ifs with h1 h2 h3 <;> simp_all [List.any_cons, List.any_nil]
  refine ⟨hiff, ?_⟩
  intro s now text hell
  have hinv : is_valid_transcription text = false :=
    (hiff text).mpr (Or.inr (Or.inr (Or.inr (Or.inr (Or.inr (Or.inr hell))))))
  exact ⟨(flush_invalid s now text hinv).1, (flush_invalid s now text hinv).2.1⟩

theorem C10_validity_predicate_witness :
    (process_buffered_audio (init_audio_state 7) 0 ellipsis_text).2 = none :=
  (C10_validity_predicate.2 (init_audio_state 7) 0 ellipsis_text (by decide)).1

/-- C6 is refuted: a full-frame pure-blue change has per-channel absolute
difference 255 > 30 on every pixel (changed fraction 1 > 0.10), yet the
code classifies the frame as unchanged because it thresholds the
grayscale-weighted difference (⌊0.114 × 255⌉ = 29 ≤ 30). -/
theorem C6_counterexample :
    same_shape blue_frame black_frame = true
    ∧ (spec_changed_count blue_frame black_frame : ℚ) / (pixel_count blue_frame : ℚ)
        > change_threshold
    ∧ detect_significant_change (some black_frame) blue_frame change_threshold = false := by
  refine ⟨by decide, ?_, ?_⟩
  · have h1 : spec_changed_count blue_frame black_frame = 1 := by decide
    have h2 : pixel_count blue_frame = 1 := by decide
    rw [h1, h2]
    norm_num [change_threshold]
  · have h3 : changed_count blue_frame black_frame = 0 := by decide
    have h2 : pixel_count blue_frame = 1 := by decide
    have hs : same_shape blue_frame black_frame = true := by decide
    unfold detect_significant_change
    simp [hs, h2, h3]
    norm_num [change_threshold]

/-- C6 (amended): for frames of identical dimensions the candidate is
classified as changed, appended to the frame buffer and published iff
the fraction of pixels whose grayscale-weighted absolute difference
(0.299 R + 0.587 G + 0.114 B) exceeds the fixed delta 30 is strictly
greater than the threshold; otherwise no event fires and the buffer is
unchanged; frames of mismatched dimensions are always changed. -/
theorem C6_change_detection :
    (∀ (lf cur : FrameMat) (q : ℚ) (fb : FrameBuffer FrameMat),
        same_shape cur lf = true → 0 < pixel_count cur →
          (((screen_capture_step (some lf) q fb cur).2 = true ↔
              (changed_count cur lf : ℚ) / (pixel_count cur : ℚ) > q)
            ∧ ((changed_count cur lf : ℚ) / (pixel_count cur : ℚ) ≤ q →
                screen_capture_step (some lf) q fb cur = (fb, false))
            ∧ ((changed_count cur lf : ℚ) / (pixel_count cur : ℚ) > q →
                screen_capture_step (some lf) q fb cur
                  = ((fb.add_frame cur true).1, true))))
    ∧ (∀ (lf cur : FrameMat) (q : ℚ), same_shape cur lf = false →
        detect_significant_change (some lf) cur q = true) := by
  constructor
  · intro lf cur q fb hs hp
    have hne : pixel_count cur ≠ 0 := Nat.pos_iff_ne_zero.mp hp
    unfold screen_capture_step detect_significant_change
    simp only [hs, hne, if_true, if_false, ite_false, ite_true]
    by_cases hgt : (changed_count cur lf : ℚ) / (pixel_count cur : ℚ) > q
    · simp [hgt]
    · simp [hgt]
  · intro lf cur q hs
    unfold detect_significant_change
    simp [hs]

theorem C6_change_detection_witness :
    screen_capture_step (some black_frame) change_threshold
        (mkFrameBuffer FrameMat 10) white_frame
      = (((mkFrameBuffer FrameMat 10).add_frame white_frame true).1, true) :=
  (C6_change_detection.1 black_frame white_frame change_threshold
      (mkFrameBuffer FrameMat 10) (by decide) (by decide)).2.2 (by
    have h1 : changed_count white_frame black_frame = 1 := by decide
    have h2 : pixel_count white_frame = 1 := by decide
    rw [h1, h2]
    norm_num [change_threshold])

lemma trim_of_le (n : ℕ) (l : List α) (h : l.length ≤ n) : trim n l = l := by
  unfold trim
  rw [Nat.sub_eq_zero_of_le h, List.drop_zero]

lemma trim_length_le (n : ℕ) (l : List α) : (trim n l).length ≤ n := by
  unfold trim
  rw [List.length_drop]
  omega

lemma trim_append_of_le (n : ℕ) (C D : List α) (h : n ≤ D.length) :
    trim n (C ++ D) = trim n D := by
  unfold trim
  rw [List.length_append]
  have he : C.length + D.length - n = C.length + (D.length - n) := by omega
  rw [he, List.drop_append]

lemma trim_trim_append (n : ℕ) (A B : List α) :
    trim n (trim n A ++ B) = trim n (A ++ B) := by
  rcases le_or_lt A.length n with h | h
  · rw [trim_of_le n A h]
  · have hlen : (trim n A).length = n := by
      unfold trim
      rw [List.length_drop]
      omega
    have h2 : n ≤ (trim n A ++ B).length := by
      rw [List.length_append, hlen]
      omega
    have h3 : List.take (A.length - n) A ++ trim n A = A := by
      unfold trim
      exact List.take_append_drop _ _
    calc trim n (trim n A ++ B)
        = trim n (List.take (A.length - n) A ++ (trim n A ++ B)) :=
          (trim_append_of_le n _ _ h2).symm
      _ = trim n ((List.take (A.length - n) A ++ trim n A) ++ B) := by
          rw [List.append_assoc]
      _ = trim n (A ++ B) := by rw [h3]

/-- Closed form of a run of `add_frame` calls: the buffer keeps the `n`
most recent frames of the creation history, and the counter advances by
one per call. -/
lemma add_all_frames {α : Type} (n : ℕ) :
    ∀ (ds : List (α × Bool)) (k : ℕ) (fs : List (FrameRec α)), fs.length ≤ n →
      add_all (⟨n, fs, k⟩ : FrameBuffer α) ds
        = ⟨n, trim n (fs ++ history_from k ds), k + ds.length⟩ := by
  intro ds
  induction ds with
  | nil =>
    intro k fs h
    simp [add_all, history_from, trim_of_le n fs h]
  | cons d ds ih =>
    intro k fs h
    have hstep : add_all (⟨n, fs, k⟩ : FrameBuffer α) (d :: ds)
        = add_all (⟨n, trim n (fs ++ [⟨d.1, k, d.2, false⟩]), k + 1⟩ : FrameBuffer α) ds := rfl
    rw [hstep, ih (k + 1) _ (trim_length_le n _)]
    have hh : history_from k (d :: ds)
        = ⟨d.1, k, d.2, false⟩ :: history_from (k + 1) ds := rfl
    rw [hh, trim_trim_append, List.append_assoc]
    have hk : k + 1 + ds.length = k + (ds.length + 1) := by omega
    rw [hk]
    rfl

lemma history_map_num {α : Type} : ∀ (ds : List (α × Bool)) (k : ℕ),
    (history_from k ds).map FrameRec.frame_number = List.range' k ds.length := by
  intro ds
  induction ds with
  | nil => intro k; rfl
  | cons d ds ih =>
    intro k
    simp [history_from, ih, List.range'_succ]

/-- C7: starting from an empty buffer of capacity `n`, any sequence of
`add_frame` calls leaves at most `n` frames, the retained frames are
exactly the most recent suffix of the creation history (oldest evicted
first), the sequence numbers are assigned consecutively from 0, and the
numbers held in the buffer are strictly increasing. -/
theorem C7_frame_buffer :
    ∀ (n : ℕ) (ds : List (ℕ × Bool)),
      (add_all (mkFrameBuffer ℕ n) ds).frames.length ≤ n
      ∧ (add_all (mkFrameBuffer ℕ n) ds).frames = trim n (history_from 0 ds)
      ∧ (add_all (mkFrameBuffer ℕ n) ds).current_frame_number = ds.length
      ∧ (history_from 0 ds).map FrameRec.frame_number = List.range ds.length
      ∧ ((add_all (mkFrameBuffer ℕ n) ds).frames.map FrameRec.frame_number).Pairwise (· < ·) := by
  intro n ds
  have h := add_all_frames n ds 0 [] (by simp)
  have hmk : mkFrameBuffer ℕ n = (⟨n, [], 0⟩ : FrameBuffer ℕ) := rfl
  have hf : (add_all (mkFrameBuffer ℕ n) ds).frames = trim n (history_from 0 ds) := by
    rw [hmk, h]
    simp
  have hc : (add_all (mkFrameBuffer ℕ n) ds).current_frame_number = ds.length := by
    rw [hmk, h]
    simp
  refine ⟨?_, hf, hc, ?_, ?_⟩
  · rw [hf]
    exact trim_length_le n _
  · rw [history_map_num, List.range_eq_range']
  · rw [hf]
    unfold trim
    rw [List.map_drop, history_map_num]
    exact (List.pairwise_lt_range' 0 ds.length).sublist (List.drop_sublist _ _)

/-- C9: after the expiry sweep an annotation is present iff its age is
strictly below its duration; the sweep is idempotent at a fixed time and
succeeds on the empty set. -/
theorem C9_expiry_sweep :
    ∀ (anns : List Annot) (now : ℚ),
      (∀ a : Annot, a ∈ remove_expired_annotations anns now ↔
          (a ∈ anns ∧ now - a.created_at < a.duration))
      ∧ remove_expired_annotations (remove_expired_annotations anns now) now
          = remove_expired_annotations anns now
      ∧ remove_expired_annotations ([] : List Annot) now = [] := by
  intro anns now
  refine ⟨?_, ?_, rfl⟩
  · intro a
    simp [remove_expired_annotations, List.mem_filter]
  · unfold remove_expired_annotations
    rw [List.filter_filter]
    simp

lemma lookup_register (ss : List (String × List ℕ)) (t : String) (q : ℕ) (u : String) :
    lookup_subs (register_sub ss t q) u =
      if u = t then some ((lookup_subs ss t).getD [] ++ [q]) else lookup_subs ss u := by
  induction ss with
  | nil => simp [register_sub, lookup_subs, eq_comm]
  | cons e rest ih =>
    simp only [register_sub, lookup_subs]
    split_ifs <;> simp_all [lookup_subs]

lemma lookup_remove (ss : List (String × List ℕ)) (t : String) (q : ℕ) (u : String) :
    lookup_subs (remove_sub ss t q) u =
      if u = t then (lookup_subs ss t).map (fun l => l.erase q) else lookup_subs ss u := by
  induction ss with
  | nil => simp [remove_sub, lookup_subs]
  | cons e rest ih =>
    simp only [remove_sub, lookup_subs]
    split_ifs <;> simp_all [lookup_subs]

/-- Effect of the `subscribe` registration loop on lookups, for a
duplicate-free type list. -/
lemma lookup_subscribe_fold (ts : List String) :
    ∀ (ss : List (String × List ℕ)) (q : ℕ) (u : String), nodupb ts = true →
      lookup_subs (ts.foldl (fun s v => register_sub s v q) ss) u =
        if u ∈ ts then some ((lookup_subs ss u).getD [] ++ [q]) else lookup_subs ss u := by
  induction ts with
  | nil => intro ss q u _; simp
  | cons v ts ih =>
    intro ss q u hnd
    simp only [nodupb, Bool.and_eq_true, Bool.not_eq_true'] at hnd
    have hvni : v ∉ ts := by simpa using hnd.1
    have hnd' : nodupb ts = true := hnd.2
    have hstep : (v :: ts).foldl (fun s w => register_sub s w q) ss
        = ts.foldl (fun s w => register_sub s w q) (register_sub ss v q) := rfl
    rw [hstep, ih _ q u hnd']
    by_cases hu : u ∈ ts
    · have huv : u ≠ v := fun h => hvni (h ▸ hu)
      simp [hu, huv, lookup_register, List.mem_cons]
    · by_cases huv : u = v
      · subst huv
        simp [hu, lookup_register]
      · simp [hu, huv, lookup_register, List.mem_cons]

/-- Registered queue lists are duplicate-free with all names below `N`. -/
def SubsOk (N : ℕ) (ss : List (String × List ℕ)) : Prop :=
  ∀ t qs, lookup_subs ss t = some qs → qs.Nodup ∧ ∀ i ∈ qs, i < N

/-- Bus sanity: registration lists well-formed, unallocated queues empty. -/
structure BusInv (b : EventBus) : Prop where
  ok : SubsOk b.next_q b.subs
  fresh : ∀ i, b.next_q ≤ i → b.queues i = []

lemma init_bus_inv : BusInv init_bus := by
  constructor
  · intro t qs h
    simp [lookup_subs, init_bus] at h
  · intro i _
    rfl

lemma subs_ok_mono {N M : ℕ} {ss : List (String × List ℕ)} (h : SubsOk N ss)
    (hle : N ≤ M) : SubsOk M ss := by
  intro t qs hl
  exact ⟨(h t qs hl).1, fun i hi => lt_of_lt_of_le ((h t qs hl).2 i hi) hle⟩

lemma subs_ok_subscribe {N : ℕ} {ss : List (String × List ℕ)} (h : SubsOk N ss)
    (ts : List String) (hnd : nodupb ts = true) :
    SubsOk (N + 1) (ts.foldl (fun s v => register_sub s v N) ss) := by
  intro t qs hl
  rw [lookup_subscribe_fold ts ss N t hnd] at hl
  split_ifs at hl with ht
  · rcases Option.some_inj.mp hl with rfl
    rcases hol : lookup_subs ss t with _ | old
    · simp [hol]
    · have hold := h t old hol
      simp only [hol, Option.getD_some]
      constructor
      · refine List.Nodup.append hold.1 (List.nodup_singleton N) ?_
        intro a ha hb
        rcases List.mem_singleton.mp hb with rfl
        exact absurd (hold.2 a ha) (lt_irrefl _)
      · intro i hi
        rcases List.mem_append.mp hi with hi | hi
        · exact lt_of_lt_of_le (hold.2 i hi) (Nat.le_succ N)
        · rcases List.mem_singleton.mp hi with rfl
          omega
  · exact subs_ok_mono h (Nat.le_succ N) t qs hl

lemma subs_ok_remove {N : ℕ} {ss : List (String × List ℕ)} (h : SubsOk N ss)
    (t : String) (q : ℕ) : SubsOk N (remove_sub ss t q) := by
  intro u qs hl
  rw [lookup_remove] at hl
  split_ifs at hl with hu
  · rcases hol : lookup_subs ss t with _ | old
    · rw [hol] at hl
      simp at hl
    · rw [hol] at hl
      rcases Option.some_inj.mp hl with rfl
      have hold := h t old hol
      exact ⟨hold.1.erase q, fun i hi => hold.2 i (List.mem_of_mem_erase hi)⟩
  · exact h u qs hl

lemma subs_ok_remove_fold {N : ℕ} (ts : List String) :
    ∀ {ss : List (String × List ℕ)}, SubsOk N ss → ∀ q : ℕ,
      SubsOk N (ts.foldl (fun s v => remove_sub s v q) ss) := by
  induction ts with
  | nil => intro ss h q; exact h
  | cons v ts ih =>
    intro ss h q
    exact ih (subs_ok_remove h v q) q

/-- Delivering to a duplicate-free queue list appends the event once to
each member queue and leaves the others untouched. -/
lemma foldl_put_eval (ev : Ev) (qs : List ℕ) :
    ∀ (Q : ℕ → List Ev) (q : ℕ), qs.Nodup →
      (qs.foldl (fun f i => upd f i (f i ++ [ev])) Q) q
        = Q q ++ (if q ∈ qs then [ev] else []) := by
  induction qs with
  | nil => intro Q q _; simp
  | cons i qs ih =>
    intro Q q hnd
    rcases List.nodup_cons.mp hnd with ⟨hni, hnd'⟩
    have hstep : ((i :: qs).foldl (fun f j => upd f j (f j ++ [ev])) Q)
        = qs.foldl (fun f j => upd f j (f j ++ [ev])) (upd Q i (Q i ++ [ev])) := rfl
    rw [hstep, ih _ q hnd']
    by_cases hqi : q = i
    · subst hqi
      have : q ∉ qs := hni
      simp [upd, this]
    · simp [upd, hqi, List.mem_cons]

lemma publish_queue (b : EventBus) (hInv : BusInv b) (t : String) (d : ℕ) (q : ℕ) :
    (b.publish t d).queues q = b.queues q ++ delivered_step b q (.publish t d) := by
  unfold EventBus.publish delivered_step
  rcases hl : lookup_subs b.subs t with _ | qs
  · simp [hl]
  · simp only [hl]
    exact foldl_put_eval ⟨t, d⟩ qs b.queues q ((hInv.ok t qs hl).1)

lemma step_queue (b : EventBus) (hInv : BusInv b) (op : BusOp) (q : ℕ) :
    (bus_step b op).queues q = b.queues q ++ delivered_step b q op := by
  cases op with
  | subscribe ts =>
    simp only [bus_step, EventBus.subscribe, delivered_step, List.append_nil]
    by_cases hq : q = b.next_q
    · subst hq
      simp [upd, hInv.fresh b.next_q (le_refl _)]
    · simp [upd, hq]
  | unsubscribe ts qq =>
    simp [bus_step, EventBus.unsubscribe, delivered_step]
  | publish t d =>
    exact publish_queue b hInv t d q

lemma publish_subs (b : EventBus) (t : String) (d : ℕ) :
    (b.publish t d).subs = b.subs ∧ (b.publish t d).next_q = b.next_q := by
  unfold EventBus.publish
  rcases lookup_subs b.subs t with _ | qs <;> exact ⟨rfl, rfl⟩

lemma step_inv (b : EventBus) (hInv : BusInv b) (op : BusOp)
    (hop : sub_nodup_ok op = true) : BusInv (bus_step b op) := by
  cases op with
  | subscribe ts =>
    constructor
    · exact subs_ok_subscribe hInv.ok ts hop
    · intro i hi
      simp only [bus_step, EventBus.subscribe] at hi ⊢
      have hne : i ≠ b.next_q := by omega
      have hge : b.next_q ≤ i := by omega
      simp [upd, hne, hInv.fresh i hge]
  | unsubscribe ts qq =>
    constructor
    · exact subs_ok_remove_fold ts hInv.ok qq
    · exact hInv.fresh
  | publish t d =>
    constructor
    · intro u qs hl
      rw [show (bus_step b (.publish t d)).subs = b.subs from (publish_subs b t d).1] at hl
      have := hInv.ok u qs hl
      rw [show (bus_step b (.publish t d)).next_q = b.next_q from (publish_subs b t d).2]
      exact this
    · intro i hi
      rw [show (bus_step b (.publish t d)).next_q = b.next_q from (publish_subs b t d).2] at hi
      have hq := publish_queue b hInv t d i
      simp only [bus_step] at hq ⊢
      rw [hq, hInv.fresh i hi]
      simp only [delivered_step]
      rcases hlt : lookup_subs b.subs t with _ | qs2
      · rfl
      · have hni : i ∉ qs2 := by
          intro hmem
          have := (hInv.ok t qs2 hlt).2 i hmem
          omega
        simp [hni]

/-- Simulation: running the bus delivers to each queue exactly the
spec-prescribed event list, given duplicate-free subscribe type lists. -/
lemma run_queue_from : ∀ (ops : List BusOp) (b : EventBus), BusInv b →
    nodup_subscribes ops = true → ∀ q : ℕ,
      (ops.foldl bus_step b).queues q = b.queues q ++ spec_delivered_from b q ops := by
  intro ops
  induction ops with
  | nil =>
    intro b _ _ q
    simp [spec_delivered_from]
  | cons op ops ih =>
    intro b hInv hnd q
    simp only [nodup_subscribes, List.all_cons, Bool.and_eq_true] at hnd
    have hop : sub_nodup_ok op = true := hnd.1
    have hnd' : nodup_subscribes ops = true := hnd.2
    have hstep : (op :: ops).foldl bus_step b = ops.foldl bus_step (bus_step b op) := rfl
    rw [hstep, ih (bus_step b op) (step_inv b hInv op hop) hnd' q,
      step_queue b hInv op q, spec_delivered_from, List.append_assoc]

/-- C8 is refuted: a `subscribe` call whose type list repeats a type
registers the same queue twice, so one publish of that type is delivered
twice to that queue, while the claim prescribes exactly one copy per
matching publish. -/
theorem C8_counterexample :
    (bus_run dup_ops).queues 0 = [⟨"a", 5⟩, ⟨"a", 5⟩]
    ∧ spec_delivered dup_ops 0 = [⟨"a", 5⟩]
    ∧ (bus_run dup_ops).queues 0 ≠ spec_delivered dup_ops 0 := by
  refine ⟨by decide, by decide, by decide⟩

/-- C8 (amended): provided every subscribe call's type list is
duplicate-free, each queue receives exactly the events whose type it is
registered for at publish time, in publish order; and a publish whose
type has no registered subscriber queue is a no-op (the bus is unchanged
when the type has no entry, and no queue changes when the entry is
empty). -/
theorem C8_delivery :
    (∀ (ops : List BusOp) (q : ℕ), nodup_subscribes ops = true →
        (bus_run ops).queues q = spec_delivered ops q)
    ∧ (∀ (b : EventBus) (t : String) (d : ℕ), lookup_subs b.subs t = none →
        b.publish t d = b)
    ∧ (∀ (b : EventBus) (t : String) (d : ℕ), lookup_subs b.subs t = some [] →
        (b.publish t d).queues = b.queues) := by
  refine ⟨?_, ?_, ?_⟩
  · intro ops q hnd
    have h := run_queue_from ops init_bus init_bus_inv hnd q
    unfold bus_run spec_delivered
    rw [h]
    rfl
  · intro b t d h
    unfold EventBus.publish
    rw [h]
  · intro b t d h
    unfold EventBus.publish
    rw [h]
    rfl

theorem C8_delivery_witness :
    (bus_run plain_ops).queues 0 = spec_delivered plain_ops 0 :=
  C8_delivery.1 plain_ops 0 (by decide)
